import Mathlib

/-!
Verification development for the multi-tenant structured-log storage engine
declared in `bin/clickhouse-logs.sql`: the primary store `logs22`
(ReplicatedReplacingMergeTree), the attribute rollup `log_attributes` fed by
the materialized view `log_to_log_attributes`, and the Kafka ingestion path
`kafka_logs_avro` / `kafka_logs_avro_mv`.

Timestamps of type `DateTime64(6)` are modelled as `Nat` microseconds since
epoch; `DateTime(0)` / `DateTime64(0)` values as `Nat` seconds since epoch.
ClickHouse `Map(String, String)` columns are modelled as association lists
`List (String × String)` (a ClickHouse map is physically an array of pairs).
`Int32` columns are modelled as `Int` with explicit range checks where the
source semantics depend on them.
-/

namespace LogsEngine

/-- `toStartOfInterval(ts, interval m minute)` on a `DateTime64(6)` argument:
floor the microsecond timestamp to a multiple of `m` minutes and return it in
seconds (the SQL return type is `DateTime(0)`). -/
def toStartOfIntervalMinutes (m : Nat) (ts : Nat) : Nat :=
  ts / (m * 60000000) * (m * 60)

/-- ClickHouse `map[key]` access: value of the first matching key, or the
default value `''` when the key is absent. -/
def mapGet (m : List (String × String)) (k : String) : String :=
  match m.find? (fun kv => kv.1 == k) with
  | some kv => kv.2
  | none => ""

/-- The columns of `logs22` a writer can supply (every non-`MATERIALIZED`,
non-`ALIAS` column of the table). `time_bucket`, `created_at` and the
`mat_body_*` search columns are `MATERIALIZED` and therefore absent here: no
insert path can set them. The column `attributes_map_float`
(`Map(String, Float64)`) is omitted from the model: no claim concerns it and
its values are floating-point. -/
structure InsertRow where
  uuid : String
  team_id : Int
  trace_id : String
  span_id : String
  trace_flags : Int
  timestamp : Nat
  observed_timestamp : Nat
  body : String
  severity_text : String
  severity_number : Int
  service_name : String
  resource_attributes : List (String × String)
  resource_id : String
  instrumentation_scope : String
  event_name : String
  attributes : List (String × String)
  attributes_map_str : List (String × String)
  attributes_map_datetime : List (String × Nat)
  deriving DecidableEq, Repr

/-- A stored row of `logs22`: the insertable columns plus the `MATERIALIZED`
column `time_bucket DateTime(0) MATERIALIZED toStartOfInterval(timestamp,
interval 1 minute)`. (`created_at MATERIALIZED now()` and the
`mat_body_*` columns are derived search/bookkeeping artifacts no claim
depends on; `level` and `time_minute` are `ALIAS` columns, not stored.) -/
structure LogRecord where
  time_bucket : Nat
  uuid : String
  team_id : Int
  trace_id : String
  span_id : String
  trace_flags : Int
  timestamp : Nat
  observed_timestamp : Nat
  body : String
  severity_text : String
  severity_number : Int
  service_name : String
  resource_attributes : List (String × String)
  resource_id : String
  instrumentation_scope : String
  event_name : String
  attributes : List (String × String)
  attributes_map_str : List (String × String)
  attributes_map_datetime : List (String × Nat)
  deriving DecidableEq, Repr

/-- Storing an insertable row into `logs22` computes the `MATERIALIZED`
column `time_bucket = toStartOfInterval(timestamp, interval 1 minute)` from
the inserted `timestamp`; every other column is stored as supplied. -/
def storeRow (i : InsertRow) : LogRecord :=
  { time_bucket := toStartOfIntervalMinutes 1 i.timestamp
    uuid := i.uuid
    team_id := i.team_id
    trace_id := i.trace_id
    span_id := i.span_id
    trace_flags := i.trace_flags
    timestamp := i.timestamp
    observed_timestamp := i.observed_timestamp
    body := i.body
    severity_text := i.severity_text
    severity_number := i.severity_number
    service_name := i.service_name
    resource_attributes := i.resource_attributes
    resource_id := i.resource_id
    instrumentation_scope := i.instrumentation_scope
    event_name := i.event_name
    attributes := i.attributes
    attributes_map_str := i.attributes_map_str
    attributes_map_datetime := i.attributes_map_datetime }

/-- The components of the full `ORDER BY` clustering key of `logs22`:
`(team_id, time_bucket DESC, service_name, resource_attributes,
severity_text, timestamp DESC, uuid, trace_id, span_id)`. Only equality of
keys matters for duplicate collapse, so the `DESC` directions are immaterial
here. -/
structure SortKey where
  team_id : Int
  time_bucket : Nat
  service_name : String
  resource_attributes : List (String × String)
  severity_text : String
  timestamp : Nat
  uuid : String
  trace_id : String
  span_id : String
  deriving DecidableEq, Repr

/-- The clustering key of a stored `logs22` row. -/
def sortKey (r : LogRecord) : SortKey :=
  { team_id := r.team_id, time_bucket := r.time_bucket,
    service_name := r.service_name,
    resource_attributes := r.resource_attributes,
    severity_text := r.severity_text, timestamp := r.timestamp,
    uuid := r.uuid, trace_id := r.trace_id, span_id := r.span_id }

/-- Background merge of the `ReplacedReplacingMergeTree`-style engine of
`logs22` (`ENGINE = ReplicatedReplacingMergeTree`): rows sharing the full
`ORDER BY` key are collapsed to exactly one surviving row; with no version
column the engine keeps the last row in merge order. The store is modelled
as the list of rows in insertion order, and collapse keeps, for every key,
its last occurrence. -/
def mergeCollapse : List LogRecord → List LogRecord
  | [] => []
  | r :: rest =>
      if ∃ s ∈ rest, sortKey s = sortKey r then mergeCollapse rest
      else r :: mergeCollapse rest

/-- Every row surviving a merge was present before the merge. -/
theorem mem_mergeCollapse {s : LogRecord} {l : List LogRecord}
    (h : s ∈ mergeCollapse l) : s ∈ l := by
  induction l with
  | nil => simp [mergeCollapse] at h
  | cons r rest ih =>
    by_cases hd : ∃ t ∈ rest, sortKey t = sortKey r
    · rw [mergeCollapse, if_pos hd] at h
      exact List.mem_cons_of_mem _ (ih h)
    · rw [mergeCollapse, if_neg hd] at h
      rcases List.mem_cons.mp h with h1 | h2
      · exact h1 ▸ List.mem_cons_self _ _
      · exact List.mem_cons_of_mem _ (ih h2)

/-- After collapse, the number of surviving rows with a given clustering key
is one when the key was present at all, and zero otherwise. -/
theorem countP_mergeCollapse (K : SortKey) (l : List LogRecord) :
    (mergeCollapse l).countP (fun s => decide (sortKey s = K))
      = if ∃ s ∈ l, sortKey s = K then 1 else 0 := by
  induction l with
  | nil => simp [mergeCollapse]
  | cons r rest ih =>
    by_cases hd : ∃ t ∈ rest, sortKey t = sortKey r
    · rw [mergeCollapse, if_pos hd, ih]
      have hiff : (∃ s ∈ r :: rest, sortKey s = K) ↔ ∃ s ∈ rest, sortKey s = K := by
        constructor
        · rintro ⟨s, hs, hsk⟩
          rcases List.mem_cons.mp hs with h1 | h2
          · obtain ⟨t, ht, htk⟩ := hd
            exact ⟨t, ht, htk.trans (h1 ▸ hsk)⟩
          · exact ⟨s, h2, hsk⟩
        · rintro ⟨s, hs, hsk⟩
          exact ⟨s, List.mem_cons_of_mem _ hs, hsk⟩
      rw [if_congr hiff rfl rfl]
    · rw [mergeCollapse, if_neg hd, List.countP_cons, ih]
      by_cases hrK : sortKey r = K
      · have hrest : ¬ ∃ s ∈ rest, sortKey s = K := by
          rintro ⟨s, hs, hsk⟩
          exact hd ⟨s, hs, hsk.trans hrK.symm⟩
        have hcons : ∃ s ∈ r :: rest, sortKey s = K :=
          ⟨r, List.mem_cons_self _ _, hrK⟩
        simp [hrest, hcons, hrK]
      · have hiff : (∃ s ∈ r :: rest, sortKey s = K) ↔ ∃ s ∈ rest, sortKey s = K := by
          constructor
          · rintro ⟨s, hs, hsk⟩
            rcases List.mem_cons.mp hs with h1 | h2
            · exact absurd (h1 ▸ hsk) hrK
            · exact ⟨s, h2, hsk⟩
          · rintro ⟨s, hs, hsk⟩
            exact ⟨s, List.mem_cons_of_mem _ hs, hsk⟩
        simp [hrK, if_congr hiff rfl rfl]

/-- Collapsing `n ≥ 1` copies of the same row leaves exactly that row. -/
theorem mergeCollapse_replicate {n : Nat} (hn : 1 ≤ n) (r : LogRecord) :
    mergeCollapse (List.replicate n r) = [r] := by
  induction n with
  | zero => omega
  | succ m ih =>
    by_cases hm : 1 ≤ m
    · rw [List.replicate_succ, mergeCollapse,
        if_pos ⟨r, List.mem_replicate.mpr ⟨by omega, rfl⟩, rfl⟩]
      exact ih hm
    · have hm0 : m = 0 := by omega
      subst hm0
      simp [mergeCollapse]

/-- Delivering a row `n ≥ 1` times yields, after collapse, the same store as
delivering it once, whatever else the store holds. -/
theorem mergeCollapse_append_replicate (l : List LogRecord) (r : LogRecord)
    {n : Nat} (hn : 1 ≤ n) :
    mergeCollapse (l ++ List.replicate n r) = mergeCollapse (l ++ [r]) := by
  induction l with
  | nil =>
    simp only [List.nil_append]
    rw [mergeCollapse_replicate hn]
    simp [mergeCollapse]
  | cons x t ih =>
    simp only [List.cons_append, mergeCollapse, List.append_eq]
    have hcond : (∃ s ∈ t ++ List.replicate n r, sortKey s = sortKey x)
        ↔ ∃ s ∈ t ++ [r], sortKey s = sortKey x := by
      constructor <;> rintro ⟨s, hs, hk⟩
      · rcases List.mem_append.mp hs with h1 | h2
        · exact ⟨s, List.mem_append.mpr (.inl h1), hk⟩
        · refine ⟨r, List.mem_append.mpr (.inr (List.mem_singleton.mpr rfl)), ?_⟩
          rw [← List.eq_of_mem_replicate h2]
          exact hk
      · rcases List.mem_append.mp hs with h1 | h2
        · exact ⟨s, List.mem_append.mpr (.inl h1), hk⟩
        · have hsr : s = r := List.mem_singleton.mp h2
          exact ⟨r, List.mem_append.mpr (.inr (List.mem_replicate.mpr ⟨by omega, rfl⟩)),
            hsr ▸ hk⟩
    by_cases hx : ∃ s ∈ t ++ [r], sortKey s = sortKey x
    · rw [if_pos (hcond.mpr hx), if_pos hx]
      exact ih
    · rw [if_neg (fun h => hx (hcond.mp h)), if_neg hx, ih]

/-- All clustering keys in a list of rows are pairwise distinct. -/
def NoDupKeys (l : List LogRecord) : Prop :=
  l.Pairwise (fun a b => sortKey a ≠ sortKey b)

/-- A collapsed store has pairwise distinct clustering keys. -/
theorem noDupKeys_mergeCollapse (l : List LogRecord) :
    NoDupKeys (mergeCollapse l) := by
  induction l with
  | nil => simp [mergeCollapse, NoDupKeys]
  | cons r rest ih =>
    by_cases hd : ∃ t ∈ rest, sortKey t = sortKey r
    · rw [mergeCollapse, if_pos hd]
      exact ih
    · rw [mergeCollapse, if_neg hd]
      refine List.Pairwise.cons (fun b hb hEq => ?_) ih
      exact hd ⟨b, mem_mergeCollapse hb, hEq.symm⟩

/-- Merge leaves a store with pairwise-distinct keys unchanged. -/
theorem mergeCollapse_eq_self {l : List LogRecord} (h : NoDupKeys l) :
    mergeCollapse l = l := by
  induction l with
  | nil => rfl
  | cons r rest ih =>
    have h1 : ∀ b ∈ rest, sortKey r ≠ sortKey b := (List.pairwise_cons.mp h).1
    have hd : ¬ ∃ t ∈ rest, sortKey t = sortKey r := by
      rintro ⟨t, ht, hk⟩
      exact h1 t ht hk.symm
    rw [mergeCollapse, if_neg hd, ih (List.pairwise_cons.mp h).2]

/-- Merging twice does not change the merged result. -/
theorem mergeCollapse_idem (l : List LogRecord) :
    mergeCollapse (mergeCollapse l) = mergeCollapse l :=
  mergeCollapse_eq_self (noDupKeys_mergeCollapse l)

/-! ### Kafka ingestion path: `kafka_logs_avro` and `kafka_logs_avro_mv` -/

/-- One decoded message of the `kafka_logs_avro` source table: its payload
columns (note: no `team_id` column exists in the Kafka table) together with
the transport metadata headers exposed by the virtual column `_headers`
(parallel arrays `_headers.name` / `_headers.value`, modelled as one list of
name/value pairs). `Nullable` payload map values are modelled as already
defaulted to plain values (no claim depends on `NULL` entries); the
`attributes_map_float` column is omitted as in `InsertRow`. -/
structure KafkaMsg where
  uuid : String
  trace_id : String
  span_id : String
  trace_flags : Int
  timestamp : Nat
  observed_timestamp : Nat
  body : String
  severity_text : String
  severity_number : Int
  service_name : String
  resource_attributes : List (String × String)
  resource_id : String
  instrumentation_scope : String
  event_name : String
  attributes : List (String × String)
  attributes_map_str : List (String × String)
  attributes_map_datetime : List (String × Nat)
  headers : List (String × String)
  deriving DecidableEq, Repr

/-- ClickHouse `indexOf(arr, x)`: 1-based position of the first occurrence
of `x` in `arr`, or `0` when absent. -/
def indexOf (l : List String) (x : String) : Nat :=
  match l.findIdx? (fun y => y == x) with
  | some i => i + 1
  | none => 0

/-- ClickHouse 1-based array subscript `arr[i]` on an `Array(String)`:
out-of-range access (including `arr[0]`) yields the default value `''`. -/
def arrayGet (l : List String) (i : Nat) : String :=
  if i = 0 then "" else (l[i - 1]?).getD ""

/-- Digits-only string body to `Nat`; `none` when empty or containing a
non-digit. -/
def digitsToNat? : List Char → Option Nat
  | [] => none
  | cs =>
      if cs.all (fun c => c.isDigit) then
        some (cs.foldl (fun a c => a * 10 + (c.toNat - '0'.toNat)) 0)
      else none

/-- Parse an optionally signed decimal integer; `none` on any other input. -/
def parseIntString? (s : String) : Option Int :=
  match s.toList with
  | '-' :: rest => (digitsToNat? rest).map (fun n => -(n : Int))
  | '+' :: rest => (digitsToNat? rest).map (fun n => (n : Int))
  | l => (digitsToNat? l).map (fun n => (n : Int))

/-- ClickHouse `toInt32OrZero(s)`: the parsed value when `s` is a decimal
integer within the `Int32` range, and `0` on any parse failure or
out-of-range value (it never raises). -/
def toInt32OrZero (s : String) : Int :=
  match parseIntString? s with
  | some n => if -(2 ^ 31) ≤ n ∧ n < 2 ^ 31 then n else 0
  | none => 0

/-- The tenant resolution expression of `kafka_logs_avro_mv`:
`toInt32OrZero(_headers.value[indexOf(_headers.name, 'team_id')])`. -/
def resolveTeamId (headers : List (String × String)) : Int :=
  toInt32OrZero
    (arrayGet (headers.map Prod.snd) (indexOf (headers.map Prod.fst) "team_id"))

/-- The materialized view `kafka_logs_avro_mv TO logs22`: `SELECT *` copies
every payload column through unmodified and adds
`toInt32OrZero(_headers.value[indexOf(_headers.name, 'team_id')]) AS
team_id` from the message headers. -/
def kafkaMV (m : KafkaMsg) : InsertRow :=
  { uuid := m.uuid
    team_id := resolveTeamId m.headers
    trace_id := m.trace_id
    span_id := m.span_id
    trace_flags := m.trace_flags
    timestamp := m.timestamp
    observed_timestamp := m.observed_timestamp
    body := m.body
    severity_text := m.severity_text
    severity_number := m.severity_number
    service_name := m.service_name
    resource_attributes := m.resource_attributes
    resource_id := m.resource_id
    instrumentation_scope := m.instrumentation_scope
    event_name := m.event_name
    attributes := m.attributes
    attributes_map_str := m.attributes_map_str
    attributes_map_datetime := m.attributes_map_datetime }

/-- The configured skip bound of the Kafka consumer:
`SETTINGS kafka_skip_broken_messages = 100` on `kafka_logs_avro`. -/
def kafka_skip_broken_messages : Nat := 100

/-- Outcome of one consumer run. -/
inductive ConsumeStatus where
  | ok
  | stalled
  deriving DecidableEq, Repr

/-- Modelled from the spec: the Kafka engine's broken-message handling is
not part of the repository (only the setting `kafka_skip_broken_messages =
100` is); the spec states that a bounded number of consecutive malformed
messages may be skipped without halting and that exceeding the threshold is
a fatal ingestion stall. A message is `none` when malformed (undecodable)
and `some m` when it decodes; the counter of consecutive malformed messages
resets on every successful decode, and the run stalls as soon as the
counter exceeds the threshold, producing no further records. -/
def consumeRun (threshold : Nat) :
    List (Option KafkaMsg) → Nat → ConsumeStatus × List LogRecord
  | [], _ => (.ok, [])
  | none :: rest, bad =>
      if threshold < bad + 1 then (.stalled, [])
      else consumeRun threshold rest (bad + 1)
  | some m :: rest, _ =>
      let out := consumeRun threshold rest 0
      (out.1, storeRow (kafkaMV m) :: out.2)

/-- A run of `n` consecutive malformed messages stalls exactly when `n`
exceeds the threshold, and produces no records either way. -/
theorem consumeRun_replicate_none (th : Nat) :
    ∀ n bad : Nat, bad ≤ th →
      consumeRun th (List.replicate n none) bad
        = if th < bad + n then (.stalled, []) else (.ok, []) := by
  intro n
  induction n with
  | zero =>
    intro bad h
    rw [List.replicate_zero, if_neg (by omega)]
    rfl
  | succ m ih =>
    intro bad h
    rw [List.replicate_succ]
    by_cases hb : th < bad + 1
    · rw [consumeRun, if_pos hb, if_pos (by omega)]
    · rw [consumeRun, if_neg hb, ih (bad + 1) (by omega),
        if_congr (by omega : th < bad + 1 + m ↔ th < bad + (m + 1)) rfl rfl]

/-- Skipping `k` malformed messages with `bad + k` still within the
threshold leaves the consumer running on the remaining input with the
counter advanced. -/
theorem consumeRun_skip (th : Nat) :
    ∀ k bad : Nat, bad + k ≤ th → ∀ l,
      consumeRun th (List.replicate k none ++ l) bad = consumeRun th l (bad + k) := by
  intro k
  induction k with
  | zero =>
    intro bad h l
    rw [List.replicate_zero, List.nil_append, Nat.add_zero]
  | succ m ih =>
    intro bad h l
    rw [List.replicate_succ, List.cons_append, consumeRun,
      if_neg (by omega), ih (bad + 1) (by omega) l]
    rw [(by omega : bad + 1 + m = bad + (m + 1))]

/-! ### Attribute rollup: `log_attributes` and `log_to_log_attributes` -/

/-- Character lists whose digits form a canonical (no leading zero) decimal
integer body. -/
def digitsNoLeadingZero : List Char → Bool
  | [] => false
  | ['0'] => true
  | c :: rest => c.isDigit && !(c == '0') && rest.all (fun d => d.isDigit)

/-- A JSON string literal without escape sequences: `"` ... `"` with an
interior free of `"` and `\`. -/
def isJsonStringLiteral : List Char → Bool
  | '"' :: rest =>
      !rest.isEmpty && rest.getLast? == some '"'
        && rest.dropLast.all (fun c => !(c == '"' || c == '\\'))
  | _ => false

/-- A JSON integer literal: optional minus sign, canonical digits. -/
def isJsonIntLiteral : List Char → Bool
  | '-' :: rest => digitsNoLeadingZero rest
  | l => digitsNoLeadingZero l

/-- Model of the rollup value expression
`CAST(JSONExtract(s, 'Dynamic'), 'String')`: parse `s` as a JSON value and
re-render it as a plain string, so a JSON string literal loses its quotes
and an integer or boolean literal renders as itself. Inputs the JSON parser
rejects (among them the empty string) yield `NULL`, which the `String`
column of the view stores as its default `''`; fractional numbers, escaped
strings, arrays, objects and `null` are modelled conservatively through the
same `''` branch, since no claim depends on them. -/
def jsonDynamicToString (s : String) : String :=
  let l := s.toList
  if isJsonStringLiteral l then String.mk (l.drop 1).dropLast
  else if isJsonIntLiteral l then s
  else if s == "true" || s == "false" then s
  else ""

/-- A row of the rollup table `log_attributes`; `attribute_count` is the
`SimpleAggregateFunction(sum, UInt64)` counter column. -/
structure RollupRow where
  team_id : Int
  time_bucket : Nat
  service_name : String
  attribute_key : String
  attribute_value : String
  attribute_count : Nat
  deriving DecidableEq, Repr

/-- The `ORDER BY (team_id, service_name, time_bucket, attribute_key,
attribute_value)` aggregation key of `log_attributes`. -/
structure RollupKey where
  team_id : Int
  service_name : String
  time_bucket : Nat
  attribute_key : String
  attribute_value : String
  deriving DecidableEq, Repr

/-- The aggregation key of a rollup row. -/
def rkeyOf (x : RollupRow) : RollupKey :=
  { team_id := x.team_id, service_name := x.service_name,
    time_bucket := x.time_bucket, attribute_key := x.attribute_key,
    attribute_value := x.attribute_value }

/-- The inner `SELECT` of the materialized view `log_to_log_attributes`
applied to one source row of `logs22`:
`arrayJoin(arrayMap((k, v) -> (k, if(length(v) > 256, '', v)),
arrayFilter((k, v) -> (length(k) < 256), CAST(attributes, ...))))`, with
`time_bucket = toStartOfInterval(timestamp, toIntervalMinute(10))`,
`attribute_key = attribute.1`,
`attribute_value = CAST(JSONExtract(attribute.2, 'Dynamic'), 'String')` and
`sumSimpleState(1)` as the counter. The view's `GROUP BY` merges equal keys
within one insert block; emitting one count-1 increment per surviving pair
is total-preserving, and totals are what the
`ReplicatedAggregatingMergeTree` target stores. -/
def rollupRows (r : LogRecord) : List RollupRow :=
  ((r.attributes.filter (fun kv => decide (kv.1.length < 256))).map
      (fun kv => (kv.1, if 256 < kv.2.length then "" else kv.2))).map
    (fun kv =>
      { team_id := r.team_id
        time_bucket := toStartOfIntervalMinutes 10 r.timestamp
        service_name := r.service_name
        attribute_key := kv.1
        attribute_value := jsonDynamicToString kv.2
        attribute_count := 1 })

/-- The stream of rollup increments produced by the materialized view over
a store (one block per source row). -/
def rollupIncrements (store : List LogRecord) : List RollupRow :=
  store.flatMap rollupRows

/-- The total held by `log_attributes` for one aggregation key after the
`ReplicatedAggregatingMergeTree` engine sums the
`SimpleAggregateFunction(sum)` counters of rows sharing the `ORDER BY`
key. -/
def rollupCount (store : List LogRecord) (k : RollupKey) : Nat :=
  (((rollupIncrements store).filter (fun x => rkeyOf x == k)).map
    (fun x => x.attribute_count)).sum

/-! ### Query surface

The four read operations exist in the repository only at their interface
boundary; they are modelled from the spec (§4.5) over the embedded store
and rollup. -/

/-- Insert a record into a list sorted by the comparator. -/
def insertBy (le : LogRecord → LogRecord → Bool) (r : LogRecord) :
    List LogRecord → List LogRecord
  | [] => [r]
  | x :: xs => if le r x then r :: x :: xs else x :: insertBy le r xs

/-- Insertion sort by a comparator. -/
def sortByRec (le : LogRecord → LogRecord → Bool) :
    List LogRecord → List LogRecord
  | [] => []
  | x :: xs => insertBy le x (sortByRec le xs)

/-- Direct substring containment on strings. -/
def containsSubstr (hay needle : String) : Bool :=
  hay.toList.tails.any (fun t => needle.toList.isPrefixOf t)

/-- Modelled from the spec: `getByTrace(team_id, trace_id) -> sequence of
LogRecord ordered by timestamp`, served via the `projection_trace_span`
layout of `logs22`: the queried tenant's rows whose `trace_id` matches, in
ascending timestamp order. -/
def getByTrace (tid : Int) (tr : String) (store : List LogRecord) :
    List LogRecord :=
  sortByRec (fun a b => decide (a.timestamp ≤ b.timestamp))
    (store.filter (fun r => r.team_id == tid && r.trace_id == tr))

/-- Modelled from the spec: `searchByText(team_id, time_range, substring)`:
candidate blocks come from the n-gram index and every result is verified by
a direct substring match; the result holds the queried tenant's rows in the
time range whose `body` contains the substring, most-recent-first. -/
def searchByText (tid : Int) (t1 t2 : Nat) (needle : String)
    (store : List LogRecord) : List LogRecord :=
  sortByRec (fun a b => decide (b.timestamp ≤ a.timestamp))
    (store.filter (fun r =>
      r.team_id == tid && decide (t1 ≤ r.timestamp)
        && decide (r.timestamp ≤ t2) && containsSubstr r.body needle))

/-- The grouping dimensions of `projection_aggregate_counts`:
`(team_id, time_bucket, toStartOfMinute(timestamp), service_name,
severity_text, resource_attributes, resource_id)`. -/
structure AggKey where
  team_id : Int
  time_bucket : Nat
  time_minute : Nat
  service_name : String
  severity_text : String
  resource_attributes : List (String × String)
  resource_id : String
  deriving DecidableEq, Repr

/-- The aggregation dimensions of one stored row. -/
def aggKeyOf (r : LogRecord) : AggKey :=
  { team_id := r.team_id, time_bucket := r.time_bucket,
    time_minute := toStartOfIntervalMinutes 1 r.timestamp,
    service_name := r.service_name, severity_text := r.severity_text,
    resource_attributes := r.resource_attributes,
    resource_id := r.resource_id }

/-- The rows `aggregateCounts` aggregates over: the queried tenant's rows
within the time range. -/
def aggSel (tid : Int) (t1 t2 : Nat) (store : List LogRecord) :
    List LogRecord :=
  store.filter (fun r =>
    r.team_id == tid && decide (t1 ≤ r.timestamp) && decide (r.timestamp ≤ t2))

/-- Modelled from the spec: `aggregateCounts(team_id, time_range, groupBy)`
served by the coarse aggregate layout `projection_aggregate_counts`;
modelled at the projection's full grouping granularity (any coarser
`groupBy` is a sum over these tuples). -/
def aggregateCounts (tid : Int) (t1 t2 : Nat) (store : List LogRecord) :
    List (AggKey × Nat) :=
  (((aggSel tid t1 t2 store).map aggKeyOf).dedup).map
    (fun k => (k, (aggSel tid t1 t2 store).countP (fun r => aggKeyOf r == k)))

/-- The rollup rows `listAttributes` reads: the queried tenant's rows in
the time range, optionally restricted to one service. -/
def listAttrSel (tid : Int) (t1 t2 : Nat) (svc : Option String)
    (rows : List RollupRow) : List RollupRow :=
  rows.filter (fun x =>
    x.team_id == tid && decide (t1 ≤ x.time_bucket)
      && decide (x.time_bucket ≤ t2)
      && (match svc with | none => true | some s => x.service_name == s))

/-- Modelled from the spec: `listAttributes(team_id, time_range,
service_name?)`, served entirely from the rollup table: the selected rows'
`(attribute_key, attribute_value)` pairs with their summed counts. -/
def listAttributes (tid : Int) (t1 t2 : Nat) (svc : Option String)
    (rows : List RollupRow) : List ((String × String) × Nat) :=
  (((listAttrSel tid t1 t2 svc rows).map
      (fun x => (x.attribute_key, x.attribute_value))).dedup).map
    (fun kv => (kv,
      (((listAttrSel tid t1 t2 svc rows).filter
          (fun x => (x.attribute_key, x.attribute_value) == kv)).map
        (fun x => x.attribute_count)).sum))

/-! ### Index layer configuration -/

/-- A declared bloom-filter index: the indexed expression and its
configured false-positive rate. -/
structure BloomIndex where
  expression : String
  fpr : ℚ
  deriving DecidableEq, Repr

/-- `INDEX idx_attributes_str_keys mapKeys(attributes_map_str) TYPE
bloom_filter(0.01)` on `logs22`. -/
def idx_attributes_str_keys : BloomIndex :=
  { expression := "mapKeys(attributes_map_str)", fpr := 1 / 100 }

/-- `INDEX idx_attributes_str_values mapValues(attributes_map_str) TYPE
bloom_filter(0.001)` on `logs22`. -/
def idx_attributes_str_values : BloomIndex :=
  { expression := "mapValues(attributes_map_str)", fpr := 1 / 1000 }

/-- `INDEX idx_attribute_key attribute_key TYPE bloom_filter(0.01)` on
`log_attributes`. -/
def idx_attribute_key : BloomIndex :=
  { expression := "attribute_key", fpr := 1 / 100 }

/-- `INDEX idx_attribute_value attribute_value TYPE bloom_filter(0.001)` on
`log_attributes`. -/
def idx_attribute_value : BloomIndex :=
  { expression := "attribute_value", fpr := 1 / 1000 }

/-- The declared `CONSTRAINT assume_service_name_attr ASSUME
attributes_map_str['service.name__str'] = service_name` of `logs22`, as a
predicate on a stored row. `ASSUME` constraints are optimizer hints; unlike
`CHECK` constraints they are not validated on insert. -/
def assumeServiceNameAttr (r : LogRecord) : Prop :=
  mapGet r.attributes_map_str "service.name__str" = r.service_name

instance (r : LogRecord) : Decidable (assumeServiceNameAttr r) := by
  unfold assumeServiceNameAttr
  infer_instance

/-- A concrete insertable row for instantiating theorems: the given tenant,
timestamp, service, trace id and attributes, every other writer-settable
column at its default. -/
def sampleInsert (team : Int) (ts : Nat) (svc tr : String)
    (attrs : List (String × String)) : InsertRow :=
  { uuid := "u0", team_id := team, trace_id := tr, span_id := "",
    trace_flags := 0, timestamp := ts, observed_timestamp := ts, body := "",
    severity_text := "info", severity_number := 9, service_name := svc,
    resource_attributes := [], resource_id := "",
    instrumentation_scope := "", event_name := "", attributes := attrs,
    attributes_map_str := [], attributes_map_datetime := [] }

/-- A concrete Kafka message: the given payload service name, string
attribute map, attributes and headers, every other column at its
default. -/
def sampleMsg (svc : String) (mapStr attrs headers : List (String × String)) :
    KafkaMsg :=
  { uuid := "u1", trace_id := "t1", span_id := "", trace_flags := 0,
    timestamp := 0, observed_timestamp := 0, body := "",
    severity_text := "info", severity_number := 9, service_name := svc,
    resource_attributes := [], resource_id := "",
    instrumentation_scope := "", event_name := "", attributes := attrs,
    attributes_map_str := mapStr, attributes_map_datetime := [],
    headers := headers }

/-! ### The claims -/

/-- C4: for every insertable row, the stored `time_bucket` equals the
row's `timestamp` floored to the configured 1-minute interval: it is the
materialized value `toStartOfInterval(timestamp, interval 1 minute)`, a
multiple of 60 seconds, and it lower-bounds the microsecond timestamp to
within one interval. It is never independently settable: `InsertRow`, the
writer-facing column set, has no `time_bucket` column, and `storeRow` is
the only constructor of stored rows. -/
theorem bucket_determinism (i : InsertRow) :
    (storeRow i).time_bucket = toStartOfIntervalMinutes 1 i.timestamp
    ∧ 60 ∣ (storeRow i).time_bucket
    ∧ (storeRow i).time_bucket * 1000000 ≤ i.timestamp
    ∧ i.timestamp < (storeRow i).time_bucket * 1000000 + 60000000 := by
  refine ⟨rfl, ?_, ?_, ?_⟩
  · show 60 ∣ i.timestamp / (1 * 60000000) * (1 * 60)
    simp only [one_mul]
    exact dvd_mul_left 60 _
  · show i.timestamp / (1 * 60000000) * (1 * 60) * 1000000 ≤ i.timestamp
    omega
  · show i.timestamp < i.timestamp / (1 * 60000000) * (1 * 60) * 1000000 + 60000000
    omega

/-- `findIdx?` finds nothing when no element satisfies the predicate. -/
theorem findIdx_none_of_ne {l : List String} {x : String}
    (h : ∀ y ∈ l, y ≠ x) :
    ∀ start : Nat, List.findIdx? (fun y => y == x) l start = none := by
  induction l with
  | nil => intro start; rfl
  | cons a t ih =>
    intro start
    rw [List.findIdx?_cons, if_neg (by simpa using h a (List.mem_cons_self a t)),
      ih (fun y hy => h y (List.mem_cons_of_mem a hy)) (start + 1)]

/-- C5: the materialized view resolves `team_id` solely from the message
metadata headers — via
`toInt32OrZero(_headers.value[indexOf(_headers.name, 'team_id')])` — so a
missing `team_id` header yields tenant `0` (the `indexOf` miss reads the
array default `''`), a header value that is not an in-range decimal integer
coerces to `0` instead of failing the batch (`toInt32OrZero` is total), and
two messages with the same headers resolve to the same tenant whatever
their payloads hold. -/
theorem decoder_tenant_resolution (m m' : KafkaMsg) :
    (kafkaMV m).team_id = resolveTeamId m.headers
    ∧ ((∀ p ∈ m.headers, p.1 ≠ "team_id") → (kafkaMV m).team_id = 0)
    ∧ (∀ s, parseIntString? s = none → toInt32OrZero s = 0)
    ∧ (∀ s n, parseIntString? s = some n → n < -(2 ^ 31) ∨ 2 ^ 31 ≤ n →
        toInt32OrZero s = 0)
    ∧ (m.headers = m'.headers → (kafkaMV m).team_id = (kafkaMV m').team_id) := by
  refine ⟨rfl, ?_, ?_, ?_, ?_⟩
  · intro h
    show resolveTeamId m.headers = 0
    rw [resolveTeamId, indexOf,
      findIdx_none_of_ne (fun y hy => by
        obtain ⟨p, hp, hpy⟩ := List.mem_map.mp hy
        exact hpy ▸ h p hp) 0]
    rfl
  · intro s hs
    rw [toInt32OrZero, hs]
  · intro s n hs hrange
    rw [toInt32OrZero, hs]
    exact if_neg (by omega)
  · intro h
    show resolveTeamId m.headers = resolveTeamId m'.headers
    rw [h]

/-- C5 witness: a concrete message with no `team_id` header resolves to
tenant `0`. -/
theorem decoder_tenant_resolution_witness :
    (kafkaMV (sampleMsg "svc" [] [] [("other", "5")])).team_id = 0 :=
  (decoder_tenant_resolution (sampleMsg "svc" [] [] [("other", "5")])
    (sampleMsg "svc" [] [] [("other", "5")])).2.1 (by decide)

/-- C6: with the configured `kafka_skip_broken_messages = 100`, a run of
`n` consecutive malformed messages stalls exactly when `n` exceeds 100 —
feeding 101 halts with the fatal stall status and zero records produced,
feeding 100 does not halt — and up to 100 consecutive malformed messages
followed by a well-formed one are skipped with consumption continuing. -/
theorem malformed_message_threshold :
    (∀ n : Nat, consumeRun kafka_skip_broken_messages (List.replicate n none) 0
        = if kafka_skip_broken_messages < n then (.stalled, []) else (.ok, []))
    ∧ consumeRun kafka_skip_broken_messages (List.replicate 101 none) 0
        = (.stalled, [])
    ∧ consumeRun kafka_skip_broken_messages (List.replicate 100 none) 0
        = (.ok, [])
    ∧ (∀ (k : Nat) (m : KafkaMsg), k ≤ kafka_skip_broken_messages →
        consumeRun kafka_skip_broken_messages
            (List.replicate k none ++ [some m]) 0
          = (.ok, [storeRow (kafkaMV m)])) := by
  have hrep : ∀ n : Nat,
      consumeRun kafka_skip_broken_messages (List.replicate n none) 0
        = if kafka_skip_broken_messages < n then (.stalled, []) else (.ok, []) := by
    intro n
    rw [consumeRun_replicate_none kafka_skip_broken_messages n 0 (Nat.zero_le _),
      Nat.zero_add]
  refine ⟨hrep, ?_, ?_, ?_⟩
  · rw [hrep 101, if_pos (by norm_num [kafka_skip_broken_messages])]
  · rw [hrep 100, if_neg (by norm_num [kafka_skip_broken_messages])]
  · intro k m hk
    rw [consumeRun_skip kafka_skip_broken_messages k 0 (by omega) [some m]]
    rfl

/-- C7 counterexample: in the schema as written the attribute-value bloom
filters (`bloom_filter(0.001)`) are configured strictly tighter, not
looser, than the attribute-key bloom filters (`bloom_filter(0.01)`), in
both `logs22` and `log_attributes`. -/
theorem bloom_fpr_ordering_cex :
    ¬ (idx_attributes_str_keys.fpr < idx_attributes_str_values.fpr
        ∧ idx_attribute_key.fpr < idx_attribute_value.fpr) := by
  rintro ⟨h1, _⟩
  norm_num [idx_attributes_str_keys, idx_attributes_str_values] at h1

/-- C7 (amended): the approximate-membership filter over attribute-map
values is configured with a tighter (lower) false-positive rate (0.001)
than the filter over attribute-map keys (0.01), in both the primary
store's attribute indexes and the rollup table's attribute indexes. -/
theorem bloom_fpr_ordering :
    idx_attributes_str_values.fpr < idx_attributes_str_keys.fpr
    ∧ idx_attribute_value.fpr < idx_attribute_key.fpr
    ∧ idx_attributes_str_keys.fpr = 1 / 100
    ∧ idx_attributes_str_values.fpr = 1 / 1000
    ∧ idx_attribute_key.fpr = 1 / 100
    ∧ idx_attribute_value.fpr = 1 / 1000 := by
  refine ⟨?_, ?_, rfl, rfl, rfl, rfl⟩ <;>
    norm_num [idx_attributes_str_keys, idx_attributes_str_values,
      idx_attribute_key, idx_attribute_value]

/-- A Kafka payload whose string-attribute map lacks the
`service.name__str` entry while `service_name` is non-empty. -/
def c9Msg : KafkaMsg := sampleMsg "svc" [] [] [("team_id", "1")]

/-- C9 counterexample: the Kafka ingestion path stores this payload as a
record violating the `ASSUME`d equality
`attributes_map_str['service.name__str'] = service_name` — nothing on the
insert path validates it. -/
theorem assume_constraint_cex :
    ¬ assumeServiceNameAttr (storeRow (kafkaMV c9Msg)) := by decide

/-- C9 (amended): the schema declares
`attributes_map_str['service.name__str'] = service_name` as an `ASSUME`
constraint consumed by query optimization, and no insert path validates or
enforces it: the Kafka materialized view copies `attributes_map_str` and
`service_name` through unmodified, so a stored record satisfies the assumed
equality exactly when its payload already did — and payloads violating it
ingest successfully. -/
theorem assume_constraint_unenforced (m : KafkaMsg) :
    (storeRow (kafkaMV m)).attributes_map_str = m.attributes_map_str
    ∧ (storeRow (kafkaMV m)).service_name = m.service_name
    ∧ (assumeServiceNameAttr (storeRow (kafkaMV m))
        ↔ mapGet m.attributes_map_str "service.name__str" = m.service_name)
    ∧ ∃ bad : KafkaMsg, ¬ assumeServiceNameAttr (storeRow (kafkaMV bad)) :=
  ⟨rfl, rfl, Iff.rfl, ⟨c9Msg, by decide⟩⟩

/-- The rollup row generated by one surviving attribute pair. -/
theorem mem_rollupRows {r : LogRecord} {k v : String}
    (hmem : (k, v) ∈ r.attributes) (hk : k.length < 256) :
    ({ team_id := r.team_id,
       time_bucket := toStartOfIntervalMinutes 10 r.timestamp,
       service_name := r.service_name, attribute_key := k,
       attribute_value := jsonDynamicToString (if 256 < v.length then "" else v),
       attribute_count := 1 } : RollupRow) ∈ rollupRows r := by
  unfold rollupRows
  exact List.mem_map.mpr ⟨(k, if 256 < v.length then "" else v),
    List.mem_map.mpr ⟨(k, v),
      List.mem_filter.mpr ⟨hmem, by simpa using hk⟩, rfl⟩, rfl⟩

/-- Every rollup row of one source record carries that record's tenant,
10-minute bucket and service, a count of one, and a surviving (short)
attribute key of the record. -/
theorem rollupRows_fields {r : LogRecord} {x : RollupRow}
    (hx : x ∈ rollupRows r) :
    x.team_id = r.team_id
    ∧ x.time_bucket = toStartOfIntervalMinutes 10 r.timestamp
    ∧ x.service_name = r.service_name
    ∧ x.attribute_count = 1
    ∧ x.attribute_key.length < 256
    ∧ ∃ kv ∈ r.attributes, x.attribute_key = kv.1 := by
  unfold rollupRows at hx
  obtain ⟨p, hp, rfl⟩ := List.mem_map.mp hx
  obtain ⟨q, hq, rfl⟩ := List.mem_map.mp hp
  have hmf := List.mem_filter.mp hq
  exact ⟨rfl, rfl, rfl, rfl, by simpa using hmf.2, ⟨q, hmf.1, rfl⟩⟩

/-- A concrete row whose attribute value is a JSON string literal. -/
def c10Insert : InsertRow := sampleInsert 1 0 "svc" "tr" [("env", "\"prod\"")]

/-- C10: for every surviving attribute pair the rollup stores not the raw
value but `CAST(JSONExtract(value, 'Dynamic'), 'String')`, its JSON-decoded
re-rendering; a value that parses as a JSON string literal appears
unquoted in `listAttributes` output while the raw record keeps the
original string. -/
theorem rollup_value_json_renormalized (r : LogRecord) (k v : String)
    (hk : k.length < 256) (hv : v.length ≤ 256) (hmem : (k, v) ∈ r.attributes) :
    (∃ x ∈ rollupRows r, x.attribute_key = k
        ∧ x.attribute_value = jsonDynamicToString v)
    ∧ jsonDynamicToString "\"prod\"" = "prod"
    ∧ ("\"prod\"" : String) ≠ "prod"
    ∧ (∀ i : InsertRow, (storeRow i).attributes = i.attributes)
    ∧ listAttributes 1 0 3600 none (rollupIncrements [storeRow c10Insert])
        = [(("env", "prod"), 1)]
    ∧ (storeRow c10Insert).attributes = [("env", "\"prod\"")] := by
  have hif : (if 256 < v.length then "" else v) = v := if_neg (by omega)
  exact ⟨⟨_, mem_rollupRows hmem hk, rfl, by rw [hif]⟩,
    by decide, by decide, fun i => rfl, by decide, by decide⟩

/-- C10 witness: the concrete record with attribute `env = "prod"` (quoted
raw value) produces a rollup row whose value is the JSON re-rendering of
that raw value. -/
theorem rollup_value_json_renormalized_witness :
    ∃ x ∈ rollupRows (storeRow c10Insert), x.attribute_key = "env"
        ∧ x.attribute_value = jsonDynamicToString "\"prod\"" :=
  (rollup_value_json_renormalized (storeRow c10Insert) "env" "\"prod\""
    (by decide) (by decide) (by decide)).1

/-- A 254-character string of `a`s. -/
def aaa254 : String := String.mk (List.replicate 254 'a')

/-- A JSON string literal of length exactly 256. -/
def v256 : String := "\"" ++ aaa254 ++ "\""

/-- A concrete row carrying an attribute value of length exactly 256. -/
def c3Insert : InsertRow := sampleInsert 1 0 "svc" "tr" [("k", v256)]

set_option maxRecDepth 8192 in
/-- C3 counterexample: an attribute value of length exactly 256 is *not*
replaced by the empty string at the rollup stage — the guard is
`length(v) > 256` — so this 256-character value produces a rollup row whose
`attribute_value` is its (non-empty) JSON re-rendering. -/
theorem rollup_truncation_cex :
    v256.length = 256
    ∧ (rollupRows (storeRow c3Insert)).map (fun x => x.attribute_value)
        = [aaa254]
    ∧ aaa254 ≠ "" := by
  refine ⟨by decide, by decide, by decide⟩

/-- C3 (amended): attribute keys of length ≥ 256 never produce a rollup row
(hence never appear in `listAttributes` output), and attribute values of
length strictly greater than 256 produce a rollup row whose
`attribute_value` is the empty string; a value of length exactly 256
survives, contributing the JSON re-rendering of the original value. The
raw record's `attributes` map is unaffected and retains the original value
when fetched directly. -/
theorem rollup_truncation (store : List LogRecord) (r : LogRecord)
    (k v : String) (hmem : (k, v) ∈ r.attributes) :
    (∀ x ∈ rollupRows r, x.attribute_key.length < 256)
    ∧ (k.length < 256 → 256 < v.length →
        ∃ x ∈ rollupRows r, x.attribute_key = k ∧ x.attribute_value = "")
    ∧ (k.length < 256 → v.length ≤ 256 →
        ∃ x ∈ rollupRows r, x.attribute_key = k
          ∧ x.attribute_value = jsonDynamicToString v)
    ∧ (∀ i : InsertRow, (storeRow i).attributes = i.attributes)
    ∧ (∀ tid t1 t2 svc kv,
        kv ∈ listAttributes tid t1 t2 svc (rollupIncrements store) →
          kv.1.1.length < 256) := by
  refine ⟨fun x hx => (rollupRows_fields hx).2.2.2.2.1, ?_, ?_, fun i => rfl, ?_⟩
  · intro hk hv
    refine ⟨_, mem_rollupRows hmem hk, rfl, ?_⟩
    rw [if_pos hv]
    show jsonDynamicToString "" = ""
    decide
  · intro hk hv
    refine ⟨_, mem_rollupRows hmem hk, rfl, ?_⟩
    rw [if_neg (by omega)]
  · intro tid t1 t2 svc kv hkv
    unfold listAttributes at hkv
    obtain ⟨p, hp, rfl⟩ := List.mem_map.mp hkv
    obtain ⟨x, hx, hxp⟩ := List.mem_map.mp (List.mem_dedup.mp hp)
    have hxsel : x ∈ rollupIncrements store :=
      (List.mem_filter.mp hx).1
    obtain ⟨rr, hrr, hxr⟩ := List.mem_flatMap.mp hxsel
    have := (rollupRows_fields hxr).2.2.2.2.1
    simpa [← hxp] using this

set_option maxRecDepth 4096 in
/-- C3 witness: the concrete record carrying the 256-character value
produces a rollup row for key `k` whose value is the JSON re-rendering of
that value. -/
theorem rollup_truncation_witness :
    ∃ x ∈ rollupRows (storeRow c3Insert), x.attribute_key = "k"
        ∧ x.attribute_value = jsonDynamicToString v256 :=
  (rollup_truncation [storeRow c3Insert] (storeRow c3Insert) "k" v256
    (by decide)).2.2.1 (by decide) (by decide)

/-- In a list of pairs with pairwise-distinct first components, the number
of pairs whose first component is `k` is one when `(k, v)` is among them. -/
theorem countP_fst_eq_one {l : List (String × String)} {k v : String}
    (hnd : (l.map Prod.fst).Nodup) (hmem : (k, v) ∈ l) :
    l.countP (fun kv => kv.1 == k) = 1 := by
  induction l with
  | nil => cases hmem
  | cons p t ih =>
    rw [List.map_cons, List.nodup_cons] at hnd
    rw [List.countP_cons]
    rcases List.mem_cons.mp hmem with h | h
    · have hp1 : p.1 = k := by rw [← h]
      have ht0 : t.countP (fun kv => kv.1 == k) = 0 :=
        List.countP_eq_zero.mpr fun q hq hqk =>
          hnd.1 (hp1 ▸ (by simpa using hqk) ▸ List.mem_map.mpr ⟨q, hq, rfl⟩)
      simp [ht0, hp1]
    · have hk1 : k ∈ t.map Prod.fst := List.mem_map.mpr ⟨(k, v), h, rfl⟩
      have hne : ¬ p.1 = k := fun e => hnd.1 (e ▸ hk1)
      simp [ih hnd.2 h, hne]

/-- A record whose attribute map has pairwise-distinct keys yields exactly
one rollup row for each surviving key. -/
theorem countP_rollupRows_key (r : LogRecord) (k : String)
    (hnd : (r.attributes.map Prod.fst).Nodup) {v : String}
    (hmem : (k, v) ∈ r.attributes) (hk : k.length < 256) :
    (rollupRows r).countP (fun x => x.attribute_key == k) = 1 := by
  unfold rollupRows
  rw [List.countP_map, List.countP_map, List.countP_filter]
  rw [List.countP_congr fun kv _ => ?_]
  · exact countP_fst_eq_one hnd hmem
  · by_cases he : kv.1 = k
    · simp [Function.comp, he, hk]
    · simp [Function.comp, he]

/-- The rollup totals over a concatenation of stores add up. -/
theorem rollupCount_append (s t : List LogRecord) (k : RollupKey) :
    rollupCount (s ++ t) k = rollupCount s k + rollupCount t k := by
  unfold rollupCount rollupIncrements
  rw [List.flatMap_append, List.filter_append, List.map_append,
    List.sum_append]

/-- A concrete row for tenant 7 whose attribute value is a JSON string
literal. -/
def c8Insert : InsertRow := sampleInsert 7 0 "svc" "tr" [("env", "\"prod\"")]

/-- C8 counterexample: the counter increment for a surviving pair is not
keyed by the truncated raw value — the stored `attribute_value` is its JSON
re-rendering, so the raw value `"prod"` (quoted, length 6 ≤ 256, hence not
truncated) increments the key holding `prod`, and no rollup key holds the
raw value. -/
theorem rollup_key_composition_cex :
    (rollupRows (storeRow c8Insert)).map (fun x => x.attribute_value)
        = ["prod"]
    ∧ rollupCount [storeRow c8Insert]
        { team_id := 7, service_name := "svc", time_bucket := 0,
          attribute_key := "env", attribute_value := "\"prod\"" } = 0
    ∧ rollupCount [storeRow c8Insert]
        { team_id := 7, service_name := "svc", time_bucket := 0,
          attribute_key := "env", attribute_value := "prod" } = 1 :=
  ⟨by decide, by decide, by decide⟩

/-- C8 (amended): for every ingested record (with distinct attribute keys,
as a map has) and every surviving attribute pair, the materializer emits
exactly one counter increment, keyed by the record's `team_id`, the
record's `timestamp` floored to 10-minute granularity, the record's
`service_name`, the attribute key, and the JSON-Dynamic re-rendering of the
attribute value truncated to empty if longer than 256; the increments sum
monotonically into the rollup counters. -/
theorem rollup_key_composition (r : LogRecord) (k v : String)
    (hnd : (r.attributes.map Prod.fst).Nodup)
    (hmem : (k, v) ∈ r.attributes) (hk : k.length < 256) :
    (rollupRows r).countP (fun x => x.attribute_key == k) = 1
    ∧ (∀ x ∈ rollupRows r,
        x.team_id = r.team_id
        ∧ x.time_bucket = toStartOfIntervalMinutes 10 r.timestamp
        ∧ x.service_name = r.service_name
        ∧ x.attribute_count = 1)
    ∧ (∃ x ∈ rollupRows r, x.attribute_key = k
        ∧ x.attribute_value
            = jsonDynamicToString (if 256 < v.length then "" else v))
    ∧ (∀ (store : List LogRecord) (k' : RollupKey),
        rollupCount store k' ≤ rollupCount (store ++ [r]) k')
    ∧ (∀ (store : List LogRecord) (k' : RollupKey),
        rollupCount (store ++ [r]) k'
          = rollupCount store k' + rollupCount [r] k') :=
  ⟨countP_rollupRows_key r k hnd hmem hk,
    fun x hx => ⟨(rollupRows_fields hx).1, (rollupRows_fields hx).2.1,
      (rollupRows_fields hx).2.2.1, (rollupRows_fields hx).2.2.2.1⟩,
    ⟨_, mem_rollupRows hmem hk, rfl, rfl⟩,
    fun store k' => by rw [rollupCount_append]; omega,
    fun store k' => rollupCount_append store [r] k'⟩

/-- C8 witness: the concrete `env` attribute of the tenant-7 record yields
exactly one rollup increment. -/
theorem rollup_key_composition_witness :
    (rollupRows (storeRow c8Insert)).countP
      (fun x => x.attribute_key == "env") = 1 :=
  (rollup_key_composition (storeRow c8Insert) "env" "\"prod\""
    (by decide) (by decide) (by decide)).1

/-- C1: for any LogRecord delivered `n ≥ 1` times with an identical full
clustering key, after merge-collapse the primary store equals the store of
a single delivery and contains exactly one logical record with that key;
`getByTrace` and `aggregateCounts` results are identical whether the
duplicate was delivered once or `n` times; and merging twice does not
change the merged result. -/
theorem idempotent_ingestion (store : List LogRecord) (r : LogRecord)
    (n : Nat) (hn : 1 ≤ n) (tid : Int) (tr : String) (t1 t2 : Nat) :
    mergeCollapse (store ++ List.replicate n r) = mergeCollapse (store ++ [r])
    ∧ (mergeCollapse (store ++ List.replicate n r)).countP
        (fun s => decide (sortKey s = sortKey r)) = 1
    ∧ getByTrace tid tr (mergeCollapse (store ++ List.replicate n r))
        = getByTrace tid tr (mergeCollapse (store ++ [r]))
    ∧ aggregateCounts tid t1 t2 (mergeCollapse (store ++ List.replicate n r))
        = aggregateCounts tid t1 t2 (mergeCollapse (store ++ [r]))
    ∧ mergeCollapse (mergeCollapse (store ++ List.replicate n r))
        = mergeCollapse (store ++ List.replicate n r) := by
  have h1 := mergeCollapse_append_replicate store r hn
  refine ⟨h1, ?_, by rw [h1], by rw [h1], mergeCollapse_idem _⟩
  rw [countP_mergeCollapse, if_pos ⟨r, List.mem_append.mpr
    (.inr (List.mem_replicate.mpr ⟨by omega, rfl⟩)), rfl⟩]

/-- A concrete stored record with trace id `T1`. -/
def c1Rec : LogRecord := storeRow (sampleInsert 1 0 "svc" "T1" [])

/-- C1 witness: delivering the concrete record twice and merging leaves the
same store, the same query results and the same singleton key count as
delivering it once. -/
theorem idempotent_ingestion_witness :
    mergeCollapse ([] ++ List.replicate 2 c1Rec) = mergeCollapse ([] ++ [c1Rec])
    ∧ (mergeCollapse ([] ++ List.replicate 2 c1Rec)).countP
        (fun s => decide (sortKey s = sortKey c1Rec)) = 1
    ∧ getByTrace 1 "T1" (mergeCollapse ([] ++ List.replicate 2 c1Rec))
        = getByTrace 1 "T1" (mergeCollapse ([] ++ [c1Rec]))
    ∧ aggregateCounts 1 0 100 (mergeCollapse ([] ++ List.replicate 2 c1Rec))
        = aggregateCounts 1 0 100 (mergeCollapse ([] ++ [c1Rec]))
    ∧ mergeCollapse (mergeCollapse ([] ++ List.replicate 2 c1Rec))
        = mergeCollapse ([] ++ List.replicate 2 c1Rec) :=
  idempotent_ingestion [] c1Rec 2 (by norm_num) 1 "T1" 0 100

/-- Membership in an insertion step of the sort. -/
theorem mem_insertBy {le : LogRecord → LogRecord → Bool} {r s : LogRecord}
    {l : List LogRecord} : s ∈ insertBy le r l ↔ s = r ∨ s ∈ l := by
  induction l with
  | nil => simp [insertBy]
  | cons x xs ih =>
    simp only [insertBy]
    by_cases h : le r x
    · simp [h]
    · rw [if_neg h]
      simp only [List.mem_cons, ih]
      tauto

/-- Sorting preserves membership. -/
theorem mem_sortByRec {le : LogRecord → LogRecord → Bool} {s : LogRecord}
    {l : List LogRecord} : s ∈ sortByRec le l ↔ s ∈ l := by
  induction l with
  | nil => simp [sortByRec]
  | cons x xs ih => simp [sortByRec, mem_insertBy, ih]

/-- Pre-filtering by a predicate the filter implies changes nothing. -/
theorem filter_filter_subsume {α : Type} (l : List α) (p q : α → Bool)
    (h : ∀ a, p a = true → q a = true) :
    (l.filter q).filter p = l.filter p := by
  induction l with
  | nil => rfl
  | cons x t ih =>
    by_cases hq : q x = true
    · rw [List.filter_cons_of_pos hq]
      by_cases hp : p x = true
      · rw [List.filter_cons_of_pos hp, List.filter_cons_of_pos hp, ih]
      · rw [List.filter_cons_of_neg hp, List.filter_cons_of_neg hp, ih]
    · have hp : ¬ p x = true := fun hpx => hq (h x hpx)
      rw [List.filter_cons_of_neg hq, List.filter_cons_of_neg hp, ih]

/-- Rollup increments of the tenant-filtered store select the same rows as
the full store's increments, for any row predicate entailing that
tenant. -/
theorem filter_rollupIncrements_team (store : List LogRecord) (A : Int)
    (p : RollupRow → Bool) (hp : ∀ x, p x = true → x.team_id = A) :
    (rollupIncrements (store.filter (fun rr => rr.team_id == A))).filter p
      = (rollupIncrements store).filter p := by
  induction store with
  | nil => rfl
  | cons rr t ih =>
    unfold rollupIncrements at ih ⊢
    by_cases hr : rr.team_id = A
    · rw [List.filter_cons_of_pos (by simpa using hr), List.flatMap_cons,
        List.flatMap_cons, List.filter_append, List.filter_append, ih]
    · rw [List.filter_cons_of_neg (by simpa using hr), List.flatMap_cons,
        List.filter_append, ih]
      have hnil : (rollupRows rr).filter p = [] := by
        rw [List.filter_eq_nil_iff]
        intro x hx hpx
        exact hr (by rw [← (rollupRows_fields hx).1]; exact hp x hpx)
      rw [hnil, List.nil_append]

/-- C2: for tenants A ≠ B, `searchByText` and `getByTrace` with A's
identifier return only records whose `team_id` is A (never B); every
`aggregateCounts` output tuple is keyed by tenant A; and `aggregateCounts`
and `listAttributes` results for A are unchanged when every other tenant's
records are removed from the store — B's records can never influence or
appear in A's results, all storage and rollup keys being `team_id`-scoped. -/
theorem tenant_isolation (A B : Int) (hAB : A ≠ B) (store : List LogRecord)
    (t1 t2 : Nat) (needle tr : String) (svc : Option String) :
    (∀ x ∈ searchByText A t1 t2 needle store, x.team_id = A ∧ x.team_id ≠ B)
    ∧ (∀ x ∈ getByTrace A tr store, x.team_id = A ∧ x.team_id ≠ B)
    ∧ (∀ kc ∈ aggregateCounts A t1 t2 store,
        kc.1.team_id = A ∧ kc.1.team_id ≠ B)
    ∧ aggregateCounts A t1 t2 store
        = aggregateCounts A t1 t2 (store.filter (fun x => x.team_id == A))
    ∧ listAttributes A t1 t2 svc (rollupIncrements store)
        = listAttributes A t1 t2 svc
            (rollupIncrements (store.filter (fun x => x.team_id == A))) := by
  refine ⟨?_, ?_, ?_, ?_, ?_⟩
  · intro x hx
    unfold searchByText at hx
    rw [mem_sortByRec] at hx
    have hb := (List.mem_filter.mp hx).2
    simp only [Bool.and_eq_true, beq_iff_eq] at hb
    exact ⟨hb.1.1.1, fun hxB => hAB (hb.1.1.1 ▸ hxB ▸ rfl)⟩
  · intro x hx
    unfold getByTrace at hx
    rw [mem_sortByRec] at hx
    have hb := (List.mem_filter.mp hx).2
    simp only [Bool.and_eq_true, beq_iff_eq] at hb
    exact ⟨hb.1, fun hxB => hAB (hb.1 ▸ hxB ▸ rfl)⟩
  · intro kc hkc
    unfold aggregateCounts at hkc
    obtain ⟨kk, hkk, rfl⟩ := List.mem_map.mp hkc
    obtain ⟨x, hx, hxk⟩ := List.mem_map.mp (List.mem_dedup.mp hkk)
    have hb := (List.mem_filter.mp hx).2
    simp only [Bool.and_eq_true, beq_iff_eq] at hb
    have : kk.team_id = A := by rw [← hxk]; exact hb.1.1
    exact ⟨this, fun hkB => hAB (this ▸ hkB ▸ rfl)⟩
  · have hsel : aggSel A t1 t2 (store.filter (fun x => x.team_id == A))
        = aggSel A t1 t2 store := by
      unfold aggSel
      exact filter_filter_subsume store _ _ fun a ha => by
        simp only [Bool.and_eq_true] at ha
        exact ha.1.1
    unfold aggregateCounts
    rw [hsel]
  · have hsel : listAttrSel A t1 t2 svc
        (rollupIncrements (store.filter (fun x => x.team_id == A)))
        = listAttrSel A t1 t2 svc (rollupIncrements store) := by
      unfold listAttrSel
      exact filter_rollupIncrements_team store A _ fun x hx => by
        simp only [Bool.and_eq_true, beq_iff_eq] at hx
        exact hx.1.1.1
    unfold listAttributes
    rw [hsel]

/-- C2 witness: with tenants 1 ≠ 2 over a concrete two-tenant store,
tenant 1's aggregate counts are unchanged by dropping the other tenant's
records. -/
theorem tenant_isolation_witness :
    aggregateCounts 1 0 100
        [storeRow (sampleInsert 1 0 "s1" "T1" []),
         storeRow (sampleInsert 2 0 "s2" "T2" [])]
      = aggregateCounts 1 0 100
          ([storeRow (sampleInsert 1 0 "s1" "T1" []),
            storeRow (sampleInsert 2 0 "s2" "T2" [])].filter
            (fun x => x.team_id == 1)) :=
  (tenant_isolation 1 2 (by norm_num)
    [storeRow (sampleInsert 1 0 "s1" "T1" []),
     storeRow (sampleInsert 2 0 "s2" "T2" [])]
    0 100 "" "T1" none).2.2.2.1

end LogsEngine
